import Mathlib

/-!
Verification of the fault-lifecycle core of the chaos-engineering repository.

The embedded code:
* `ChaosTestBase._cleanup`, `ChaosTestBase.add_fault_id`,
  `ChaosTestBase._setup_cleanup_handlers`, `ChaosTestBase._signal_handler`
  (chaos-tests/lib/chaos_base.py);
* `ServiceOutageChaos.inject_fault` (chaos-tests/scenarios/service_outage.py);
* `cleanup_all_faults` (chaos-tests/lib/cleanup_faults.py).

HTTP traffic is modelled by an environment that fixes, for every request the
code can issue, either the response status code or the fact that the request
raised an exception (connection error, timeout, ...).  Fault identifiers are
strings; the empty string stands for a falsy Python value (so the Python
truthiness test `if fault_id:` becomes `fid = ""` versus `fid ≠ ""`).
-/

namespace Chaos

/-- Outcome of one HTTP request: the library raised an exception
(`exn`: connection error, timeout, ...) or returned a response with the
given status code. -/
inductive HttpOutcome where
  | exn : HttpOutcome
  | status : Nat → HttpOutcome
  deriving DecidableEq

/-- A record of one HTTP request issued by the embedded code, with the
`timeout` keyword argument passed to the `requests` call at that call site
(`none` when the call site passes no timeout, which is the `requests`
default of waiting forever). -/
inductive HttpCall where
  | deleteFault : String → Option Nat → HttpCall
  | bulkClear : Option Nat → HttpCall
  | getFaults : Option Nat → HttpCall
  deriving DecidableEq

/-- The timeout carried by an issued request. -/
def callTimeout : HttpCall → Option Nat
  | .deleteFault _ t => t
  | .bulkClear t => t
  | .getFaults t => t

/-- Whether a recorded call is the bulk-clear `POST <endpoint>` with body `[]`. -/
def isBulkClear : HttpCall → Bool
  | .bulkClear _ => true
  | _ => false

/-- Whether a recorded call is an individual `DELETE <endpoint>/<id>`. -/
def isDeleteCall : HttpCall → Bool
  | .deleteFault _ _ => true
  | _ => false

/-- Environment for one `_cleanup` pass: the outcome of the
`requests.delete` for each fault id, and the outcome of the fallback
`requests.post(url, json=[])`. -/
structure CleanupEnv where
  deleteOutcome : String → HttpOutcome
  bulkOutcome : HttpOutcome

/-- 200/204 test of `_cleanup`: `response.status_code in [200, 204]`.
An exception (`exn`) never has a success status. -/
def statusSuccess : HttpOutcome → Bool
  | .exn => false
  | .status c => c == 200 || c == 204

/-- A raw `requests` call: raises (`Except.error`) or returns the status
code of the response. -/
def rawCall : HttpOutcome → Except Unit Nat
  | .exn => Except.error ()
  | .status c => Except.ok c

/-- One iteration of the deletion loop of `ChaosTestBase._cleanup`:
`try: response = requests.delete(f"{url}/{fault_id}"); if
response.status_code in [200, 204]: cleaned += 1; except: pass`.
The request may raise (`rawCall` gives `Except.error`); the bare `except`
catches everything, so the iteration returns `Except.ok` of the updated
success counter. -/
def attemptDelete (env : CleanupEnv) (fid : String) (cleaned : Nat) : Except Unit Nat :=
  tryCatch
    (match rawCall (env.deleteOutcome fid) with
      | Except.error e => Except.error e
      | Except.ok code =>
        Except.ok (if code == 200 || code == 204 then cleaned + 1 else cleaned))
    (fun _ => Except.ok cleaned)

/-- The fallback of `ChaosTestBase._cleanup`:
`try: requests.post(self.chaos_api_url, json=[]); print("All faults
cleared") except: print("Failed to clear some faults")`.  The response of
the bulk-clear is not even inspected; an exception is caught and only
changes the printed message. -/
def attemptBulk (env : CleanupEnv) : Except Unit Unit :=
  tryCatch
    (match rawCall env.bulkOutcome with
      | Except.error e => Except.error e
      | Except.ok _ => Except.ok ())
    (fun _ => Except.ok ())

/-- Result of one `_cleanup` pass: the HTTP calls issued in order, the
`cleaned` counter, and the value of `self.fault_ids` when the pass
returns. -/
structure CleanupResult where
  calls : List HttpCall
  cleaned : Nat
  faultIds : List String
  deriving DecidableEq

/-- Exception-explicit deletion loop of `_cleanup`: `for fault_id in
self.fault_ids: if fault_id: ...` with the `try/except` of
`attemptDelete` inside.  An exception escaping an iteration would
propagate (`Except.error` branch); `cleanupExc_never_raises_aux` below
shows it never does. -/
def cleanupExcLoop (env : CleanupEnv) (acc : List HttpCall × Nat) :
    List String → Except Unit (List HttpCall × Nat)
  | [] => Except.ok acc
  | fid :: rest =>
    if fid = "" then cleanupExcLoop env acc rest
    else
      match attemptDelete env fid acc.2 with
      | Except.ok cleaned =>
        cleanupExcLoop env (acc.1 ++ [HttpCall.deleteFault fid none], cleaned) rest
      | Except.error e => Except.error e

/-- Exception-free form of the deletion loop: records the issued `DELETE`
calls (no timeout argument at the call site) and counts the responses
with status 200 or 204. -/
def cleanupLoop (env : CleanupEnv) (acc : List HttpCall × Nat) :
    List String → List HttpCall × Nat
  | [] => acc
  | fid :: rest =>
    if fid = "" then cleanupLoop env acc rest
    else
      cleanupLoop env
        (acc.1 ++ [HttpCall.deleteFault fid none],
          if statusSuccess (env.deleteOutcome fid) then acc.2 + 1 else acc.2)
        rest

/-- `ChaosTestBase._cleanup` (chaos_base.py lines 36-63), exception-free
form.  `if not self.fault_ids: return` is the empty-list test; otherwise
the deletion loop runs, and `if cleaned < len(self.fault_ids)` one
bulk-clear `POST` with body `[]` is issued (its outcome only affects a
print).  Note the method never assigns `self.fault_ids`: the list is
returned unchanged. -/
def cleanup (env : CleanupEnv) (fault_ids : List String) : CleanupResult :=
  if fault_ids = [] then
    { calls := [], cleaned := 0, faultIds := fault_ids }
  else
    let r := cleanupLoop env ([], 0) fault_ids
    if r.2 < fault_ids.length then
      { calls := r.1 ++ [HttpCall.bulkClear none], cleaned := r.2, faultIds := fault_ids }
    else
      { calls := r.1, cleaned := r.2, faultIds := fault_ids }

/-- `ChaosTestBase._cleanup`, exception-explicit form: the same control
flow with the `try/except` blocks kept visible.  A value `Except.error e`
would mean `_cleanup` raised `e` to its caller. -/
def cleanupExc (env : CleanupEnv) (fault_ids : List String) :
    Except Unit CleanupResult :=
  if fault_ids = [] then
    Except.ok { calls := [], cleaned := 0, faultIds := fault_ids }
  else
    match cleanupExcLoop env ([], 0) fault_ids with
    | Except.error e => Except.error e
    | Except.ok r =>
      if r.2 < fault_ids.length then
        match attemptBulk env with
        | Except.error e => Except.error e
        | Except.ok _ =>
          Except.ok { calls := r.1 ++ [HttpCall.bulkClear none], cleaned := r.2,
                      faultIds := fault_ids }
      else
        Except.ok { calls := r.1, cleaned := r.2, faultIds := fault_ids }

/-- `ChaosTestBase.add_fault_id` (chaos_base.py lines 65-68):
`if fault_id: self.fault_ids.append(fault_id)`.  A falsy id (`none`, or
the empty string) is not recorded. -/
def add_fault_id (fault_ids : List String) (fault_id : Option String) : List String :=
  match fault_id with
  | some s => if s = "" then fault_ids else fault_ids ++ [s]
  | none => fault_ids

/-- Whether the `DELETE` for `fid` would be issued and succeed: the id is
truthy and the response status is 200 or 204. -/
def deleteSucceeds (env : CleanupEnv) (fid : String) : Bool :=
  if fid = "" then false else statusSuccess (env.deleteOutcome fid)

/-- The individual `DELETE` calls `_cleanup` issues for a fault-id list:
one per truthy id, in order, carrying no timeout. -/
def issuedDeletes : List String → List HttpCall
  | [] => []
  | fid :: rest =>
    if fid = "" then issuedDeletes rest
    else HttpCall.deleteFault fid none :: issuedDeletes rest

/-- A cleanup environment in which every request raises. -/
def envAllExn : CleanupEnv :=
  { deleteOutcome := fun _ => HttpOutcome.exn, bulkOutcome := HttpOutcome.exn }

/-- The first element of the JSON list returned by the inject `POST`, as
`ServiceOutageChaos.inject_fault` consumes it with `result[0].get("id")`:
a dict carrying `"id"`, a dict without it (`.get` returns `None`), or a
non-dict value (`.get` raises `AttributeError`). -/
inductive InjectItem where
  | withId : String → InjectItem
  | withoutId : InjectItem
  | notDict : InjectItem
  deriving DecidableEq

/-- The body of a 200 response to the inject `POST`:
`response.json()` raises (`invalidJson`), parses to a non-list
(`isinstance(result, list)` is false), or parses to a list. -/
inductive InjectBody where
  | invalidJson : InjectBody
  | notList : InjectBody
  | jsonList : List InjectItem → InjectBody
  deriving DecidableEq

/-- Outcome of the inject `POST`: the request raised, or a response with a
status code and (when consulted) a body. -/
inductive InjectOutcome where
  | exn : InjectOutcome
  | response : Nat → InjectBody → InjectOutcome
  deriving DecidableEq

/-- Result of one `inject_fault` call: the returned boolean and the value
of the `self.fault_id` slot after the call (`prior` is its value
before). -/
structure InjectResult where
  success : Bool
  fault_id : Option String
  deriving DecidableEq

/-- `ServiceOutageChaos.inject_fault` (service_outage.py lines 22-57),
its HTTP part: `response = requests.post(url, json=[fault_config])`; on
`response.status_code == 200` the body is parsed and, when it is a
non-empty list, `self.fault_id = result[0].get("id")`; the method then
returns `True` — even when the body was not a list, was empty, or had no
`"id"` key.  A non-200 status returns `False`; any exception (transport
failure, timeout, JSON parse error, `result[0].get` on a non-dict) is
caught by the bare `except` and returns `False`, leaving `self.fault_id`
unassigned. -/
def inject_fault (prior : Option String) (outcome : InjectOutcome) : InjectResult :=
  match outcome with
  | .exn => { success := false, fault_id := prior }
  | .response code body =>
    if code = 200 then
      match body with
      | .invalidJson => { success := false, fault_id := prior }
      | .notList => { success := true, fault_id := prior }
      | .jsonList [] => { success := true, fault_id := prior }
      | .jsonList (item :: _) =>
        match item with
        | .withId i => { success := true, fault_id := some i }
        | .withoutId => { success := true, fault_id := none }
        | .notDict => { success := false, fault_id := prior }
    else
      { success := false, fault_id := prior }

/-- A sequence of inject attempts recorded into a FaultSet: each call runs
`inject_fault` with a fresh `self.fault_id` slot and, when it reports
success, records the extracted id with `add_fault_id`.  Returns the final
fault-id list and the per-call results in order. -/
def runInjections (fault_ids : List String) :
    List InjectOutcome → List String × List InjectResult
  | [] => (fault_ids, [])
  | o :: rest =>
    let r := inject_fault none o
    let fids := if r.success then add_fault_id fault_ids r.fault_id else fault_ids
    let next := runInjections fids rest
    (next.1, r :: next.2)

/-- The two signals `_setup_cleanup_handlers` registers a handler for:
`signal.SIGINT` (2) and `signal.SIGTERM` (15). -/
def registeredSignals : List Nat := [2, 15]

/-- What happens on the way to process exit: the `_cleanup` runs in
order, and the exit status. -/
structure ExitTrace where
  cleanupRuns : List CleanupResult
  exitCode : Nat
  deriving DecidableEq

/-- Delivery of a registered termination signal:
`_signal_handler` prints, calls `self._cleanup()`, then `sys.exit(1)`.
`sys.exit` raises `SystemExit`, which (uncaught) shuts the interpreter
down normally, running the handlers registered with `atexit` — among them
the `self._cleanup` registered in `_setup_cleanup_handlers`.  Because the
first pass left `self.fault_ids` unchanged, the atexit pass runs over the
same list.  `env1`/`env2` give the HTTP outcomes seen by the two passes. -/
def signalExit (env1 env2 : CleanupEnv) (fault_ids : List String) : ExitTrace :=
  let r1 := cleanup env1 fault_ids
  let r2 := cleanup env2 r1.faultIds
  { cleanupRuns := [r1, r2], exitCode := 1 }

/-- Normal process exit with status `code`: only the atexit-registered
`self._cleanup` runs, once. -/
def normalExit (env : CleanupEnv) (fault_ids : List String) (code : Nat) : ExitTrace :=
  { cleanupRuns := [cleanup env fault_ids], exitCode := code }

/-- Body of the 200 response to the listing `GET` in
`cleanup_all_faults`: `response.json()` raises, or parses to the list of
active faults (only emptiness and length are consumed; ids suffice). -/
inductive ListBody where
  | invalidJson : ListBody
  | faults : List String → ListBody
  deriving DecidableEq

/-- Environment for one `cleanup_all_faults` run: outcome of the listing
`GET`, its parsed body (consulted only on status 200), and outcome of the
bulk-clear `POST`. -/
structure CleanupAllEnv where
  getOutcome : HttpOutcome
  getBody : ListBody
  clearOutcome : HttpOutcome

/-- Result of `cleanup_all_faults`: the returned boolean and the HTTP
calls issued in order. -/
structure CleanupAllResult where
  ok : Bool
  calls : List HttpCall
  deriving DecidableEq

/-- `cleanup_all_faults` (cleanup_faults.py lines 9-40): one `GET` of the
fault endpoint; on status 200 the body is parsed; an empty fault list
returns `True` at once; a non-empty list triggers exactly one bulk-clear
`POST` with body `[]`, returning `True` on its status 200 and `False`
otherwise; a non-200 listing returns `False`; any exception anywhere
(transport, JSON parse, the `POST` itself) is caught and returns `False`.
No call passes a timeout, and no individual `DELETE` is ever issued (the
comment in the source says LocalStack does not support deletion by id
here). -/
def cleanup_all_faults (env : CleanupAllEnv) : CleanupAllResult :=
  match env.getOutcome with
  | .exn => { ok := false, calls := [HttpCall.getFaults none] }
  | .status c =>
    if c = 200 then
      match env.getBody with
      | .invalidJson => { ok := false, calls := [HttpCall.getFaults none] }
      | .faults [] => { ok := true, calls := [HttpCall.getFaults none] }
      | .faults (_ :: _) =>
        match env.clearOutcome with
        | .exn =>
          { ok := false, calls := [HttpCall.getFaults none, HttpCall.bulkClear none] }
        | .status cc =>
          if cc = 200 then
            { ok := true, calls := [HttpCall.getFaults none, HttpCall.bulkClear none] }
          else
            { ok := false, calls := [HttpCall.getFaults none, HttpCall.bulkClear none] }
    else
      { ok := false, calls := [HttpCall.getFaults none] }

/-! Helper lemmas shared by the claim theorems. -/

lemma attemptDelete_eq (env : CleanupEnv) (fid : String) (n : Nat) :
    attemptDelete env fid n =
      Except.ok (if statusSuccess (env.deleteOutcome fid) then n + 1 else n) := by
  unfold attemptDelete statusSuccess rawCall
  cases h : env.deleteOutcome fid <;> rfl

lemma attemptBulk_eq (env : CleanupEnv) : attemptBulk env = Except.ok () := by
  unfold attemptBulk rawCall
  cases h : env.bulkOutcome <;> rfl

lemma cleanupExcLoop_eq (env : CleanupEnv) (l : List String) :
    ∀ acc, cleanupExcLoop env acc l = Except.ok (cleanupLoop env acc l) := by
  induction l with
  | nil => intro acc; rfl
  | cons fid rest ih =>
    intro acc
    by_cases h : fid = ""
    · simp [cleanupExcLoop, cleanupLoop, h, ih]
    · simp [cleanupExcLoop, cleanupLoop, h, ih, attemptDelete_eq]

lemma cleanupLoop_fst (env : CleanupEnv) (l : List String) :
    ∀ acc, (cleanupLoop env acc l).1 = acc.1 ++ issuedDeletes l := by
  induction l with
  | nil => intro acc; simp [cleanupLoop, issuedDeletes]
  | cons fid rest ih =>
    intro acc
    by_cases h : fid = ""
    · simp [cleanupLoop, issuedDeletes, h, ih]
    · simp [cleanupLoop, issuedDeletes, h, ih]

lemma cleanupLoop_snd (env : CleanupEnv) (l : List String) :
    ∀ acc, (cleanupLoop env acc l).2 = acc.2 + l.countP (deleteSucceeds env) := by
  induction l with
  | nil => intro acc; simp [cleanupLoop]
  | cons fid rest ih =>
    intro acc
    by_cases h : fid = ""
    · subst h
      have hp : deleteSucceeds env "" = false := by simp [deleteSucceeds]
      simp [cleanupLoop, ih, List.countP_cons, hp]
    · have hp : deleteSucceeds env fid = statusSuccess (env.deleteOutcome fid) := by
        simp [deleteSucceeds, h]
      simp only [cleanupLoop, if_neg h, ih, List.countP_cons, hp]
      cases hs : statusSuccess (env.deleteOutcome fid) <;> simp_arith

lemma issuedDeletes_no_bulk (l : List String) :
    ∀ c ∈ issuedDeletes l, isBulkClear c = false := by
  induction l with
  | nil => intro c hc; simp [issuedDeletes] at hc
  | cons fid rest ih =>
    intro c hc
    by_cases h : fid = ""
    · exact ih c (by simpa [issuedDeletes, h] using hc)
    · simp [issuedDeletes, h] at hc
      rcases hc with hc | hc
      · simp [hc, isBulkClear]
      · exact ih c hc

lemma issuedDeletes_all_delete (l : List String) :
    ∀ c ∈ issuedDeletes l, isDeleteCall c = true := by
  induction l with
  | nil => intro c hc; simp [issuedDeletes] at hc
  | cons fid rest ih =>
    intro c hc
    by_cases h : fid = ""
    · exact ih c (by simpa [issuedDeletes, h] using hc)
    · simp [issuedDeletes, h] at hc
      rcases hc with hc | hc
      · simp [hc, isDeleteCall]
      · exact ih c hc

lemma issuedDeletes_timeout (l : List String) :
    ∀ c ∈ issuedDeletes l, callTimeout c = none := by
  induction l with
  | nil => intro c hc; simp [issuedDeletes] at hc
  | cons fid rest ih =>
    intro c hc
    by_cases h : fid = ""
    · exact ih c (by simpa [issuedDeletes, h] using hc)
    · simp [issuedDeletes, h] at hc
      rcases hc with hc | hc
      · simp [hc, callTimeout]
      · exact ih c hc

lemma countP_lt_length_of_mem_not {α : Type} {p : α → Bool} {a : α} {l : List α}
    (ha : a ∈ l) (hpa : p a = false) : l.countP p < l.length := by
  induction l with
  | nil => simp at ha
  | cons b rest ih =>
    rcases List.mem_cons.mp ha with hb | hb
    · subst hb
      have h1 : rest.countP p ≤ rest.length := List.countP_le_length p
      simp [List.countP_cons, hpa, List.length_cons]
      omega
    · have h1 := ih hb
      rw [List.countP_cons]
      simp only [List.length_cons]
      cases hp : p b <;> simp <;> omega

lemma cleanup_faultIds (env : CleanupEnv) (l : List String) :
    (cleanup env l).faultIds = l := by
  unfold cleanup
  by_cases h : l = [] <;> simp [h]
  split <;> rfl

lemma cleanup_cleaned (env : CleanupEnv) (l : List String) :
    (cleanup env l).cleaned = l.countP (deleteSucceeds env) := by
  unfold cleanup
  by_cases h : l = []
  · simp [h]
  · simp only [if_neg h]
    have hs := cleanupLoop_snd env l ([], 0)
    split <;> simp [hs]

lemma cleanup_calls (env : CleanupEnv) (l : List String) :
    (cleanup env l).calls =
      issuedDeletes l ++
        (if l.countP (deleteSucceeds env) < l.length then [HttpCall.bulkClear none]
          else []) := by
  unfold cleanup
  by_cases h : l = []
  · subst h; simp [issuedDeletes]
  · simp only [if_neg h]
    have hf := cleanupLoop_fst env l ([], 0)
    have hs := cleanupLoop_snd env l ([], 0)
    simp only [Nat.zero_add] at hs
    rw [hs] at *
    split <;> simp_all

lemma cleanup_bulk_count (env : CleanupEnv) (l : List String) :
    (cleanup env l).calls.countP isBulkClear =
      if l.countP (deleteSucceeds env) < l.length then 1 else 0 := by
  rw [cleanup_calls, List.countP_append]
  have h0 : (issuedDeletes l).countP isBulkClear = 0 := by
    rw [List.countP_eq_zero]
    intro c hc
    simp [issuedDeletes_no_bulk l c hc]
  rw [h0]
  split <;> simp [List.countP_cons, isBulkClear]

lemma cleanup_delete_calls (env : CleanupEnv) (l : List String) :
    (cleanup env l).calls.filter isDeleteCall = issuedDeletes l := by
  rw [cleanup_calls, List.filter_append]
  have h1 : (issuedDeletes l).filter isDeleteCall = issuedDeletes l :=
    List.filter_eq_self.mpr (issuedDeletes_all_delete l)
  have h2 :
      (if l.countP (deleteSucceeds env) < l.length then [HttpCall.bulkClear none]
        else []).filter isDeleteCall = [] := by
    split <;> simp [isDeleteCall]
  rw [h1, h2, List.append_nil]

lemma mem_add_fault_id (fids : List String) (fid : Option String) (x : String)
    (hx : x ∈ fids) : x ∈ add_fault_id fids fid := by
  cases fid with
  | none => exact hx
  | some s =>
    by_cases h : s = "" <;> simp [add_fault_id, h, hx]

lemma mem_runInjections (outs : List InjectOutcome) :
    ∀ fids x, x ∈ fids → x ∈ (runInjections fids outs).1 := by
  induction outs with
  | nil =>
    intro fids x hx
    simpa [runInjections] using hx
  | cons o rest ih =>
    intro fids x hx
    have hx2 : x ∈ (if (inject_fault none o).success then
        add_fault_id fids (inject_fault none o).fault_id else fids) := by
      split
      · exact mem_add_fault_id _ _ _ hx
      · exact hx
    simpa only [runInjections] using ih _ x hx2

lemma runInjections_cons_ok_fst (fids : List String) (s : String)
    (items : List InjectItem) (rest : List InjectOutcome) (hs : s ≠ "") :
    (runInjections fids
        (InjectOutcome.response 200
          (InjectBody.jsonList (InjectItem.withId s :: items)) :: rest)).1
      = (runInjections (fids ++ [s]) rest).1 := by
  simp [runInjections, inject_fault, add_fault_id, hs]

lemma runInjections_cons_ok_snd (fids : List String) (s : String)
    (items : List InjectItem) (rest : List InjectOutcome) (hs : s ≠ "") :
    (runInjections fids
        (InjectOutcome.response 200
          (InjectBody.jsonList (InjectItem.withId s :: items)) :: rest)).2
      = { success := true, fault_id := some s }
          :: (runInjections (fids ++ [s]) rest).2 := by
  simp [runInjections, inject_fault, add_fault_id, hs]

lemma runInjections_wellformed (outs : List InjectOutcome) :
    ∀ fids : List String,
      (∀ o ∈ outs, ∃ s items,
          o = InjectOutcome.response 200
                (InjectBody.jsonList (InjectItem.withId s :: items))
            ∧ s ≠ "") →
      (runInjections fids outs).1.length = fids.length + outs.length ∧
        ∀ r ∈ (runInjections fids outs).2, ∀ s, r.fault_id = some s →
          s ∈ (runInjections fids outs).1 := by
  induction outs with
  | nil =>
    intro fids _
    constructor
    · simp [runInjections]
    · intro r hr
      simp [runInjections] at hr
  | cons o rest ih =>
    intro fids H
    obtain ⟨s, items, ho, hs⟩ := H o (List.mem_cons_self o rest)
    have Hrest : ∀ o2 ∈ rest, ∃ s2 items2,
        o2 = InjectOutcome.response 200
              (InjectBody.jsonList (InjectItem.withId s2 :: items2))
          ∧ s2 ≠ "" := fun o2 h2 => H o2 (List.mem_cons_of_mem o h2)
    subst ho
    have ihr := ih (fids ++ [s]) Hrest
    constructor
    · rw [runInjections_cons_ok_fst fids s items rest hs, ihr.1]
      simp only [List.length_append, List.length_cons, List.length_nil]
      omega
    · intro r hrmem s2 hs2
      rw [runInjections_cons_ok_snd fids s items rest hs] at hrmem
      rw [runInjections_cons_ok_fst fids s items rest hs]
      rcases List.mem_cons.mp hrmem with hhead | htail
      · subst hhead
        have hs2e : s = s2 := by simpa using hs2
        subst hs2e
        exact mem_runInjections rest (fids ++ [s]) s (by simp)
      · exact ihr.2 r htail s2 hs2

/-- A cleanup environment in which every request returns status 200. -/
def envAll200 : CleanupEnv :=
  { deleteOutcome := fun _ => HttpOutcome.status 200,
    bulkOutcome := HttpOutcome.status 200 }

/-! Claim theorems. -/

/-- Claim C3: calling `_cleanup` (recover_all) with an empty fault-id list is
a no-op: no HTTP calls are issued and zero removals are performed. -/
theorem cleanup_empty_noop (env : CleanupEnv) :
    (cleanup env []).calls = [] ∧ (cleanup env []).cleaned = 0 :=
  ⟨rfl, rfl⟩

/-- Claim C4: if every fault id in the list is truthy and its individual
deletion returns a success status (200 or 204), the recovery pass issues no
bulk-clear call.  The truthiness hypothesis encodes the FaultSet invariant:
`add_fault_id` only ever records truthy identifiers. -/
theorem cleanup_all_success_no_bulk_clear (env : CleanupEnv) (l : List String)
    (h : ∀ fid ∈ l, fid ≠ "" ∧ statusSuccess (env.deleteOutcome fid) = true) :
    (cleanup env l).calls.countP isBulkClear = 0 := by
  rw [cleanup_bulk_count]
  have hall : l.countP (deleteSucceeds env) = l.length := by
    rw [List.countP_eq_length]
    intro fid hf
    rcases h fid hf with ⟨h1, h2⟩
    simp [deleteSucceeds, h1, h2]
  rw [hall]
  simp

/-- Witness for C4 at a concrete input: two faults, both deletions return
status 200. -/
theorem cleanup_all_success_no_bulk_clear_witness :
    (cleanup envAll200 ["a", "b"]).calls.countP isBulkClear = 0 :=
  cleanup_all_success_no_bulk_clear envAll200 ["a", "b"] (by decide)

/-- Claim C1 counterexample: one fault id `"a"` whose deletion raises — the
pass issues exactly one bulk-clear, yet the in-memory fault-id list is NOT
empty afterwards (the claim asserts it is): `_cleanup` never clears
`self.fault_ids`. -/
theorem cleanup_partial_failure_not_emptied_cex :
    (cleanup envAllExn ["a"]).calls.countP isBulkClear = 1 ∧
      (cleanup envAllExn ["a"]).faultIds = ["a"] ∧
      ¬((cleanup envAllExn ["a"]).faultIds = []) := by
  refine ⟨?_, ?_, ?_⟩ <;> decide

/-- Claim C1 amended: for every non-empty FaultSet, if at least one issued
individual deletion fails (non-success status or a raised request), exactly
one bulk-clear call is issued during the pass, and the in-memory fault-id
list is left unchanged — not emptied — regardless of the bulk-clear's own
outcome (the result does not depend on `bulkOutcome` at all). -/
theorem cleanup_partial_failure_one_bulk_clear (env : CleanupEnv)
    (l : List String) (fid : String) (hmem : fid ∈ l) (ht : fid ≠ "")
    (hfail : statusSuccess (env.deleteOutcome fid) = false) :
    (cleanup env l).calls.countP isBulkClear = 1 ∧
      (cleanup env l).faultIds = l := by
  refine ⟨?_, cleanup_faultIds env l⟩
  rw [cleanup_bulk_count]
  have hlt : l.countP (deleteSucceeds env) < l.length :=
    countP_lt_length_of_mem_not hmem (by simp [deleteSucceeds, ht, hfail])
  simp [hlt]

/-- Witness for the amended C1 at a concrete input: ids `"a"`, `"b"`, both
deletions raise. -/
theorem cleanup_partial_failure_one_bulk_clear_witness :
    (cleanup envAllExn ["a", "b"]).calls.countP isBulkClear = 1 ∧
      (cleanup envAllExn ["a", "b"]).faultIds = ["a", "b"] :=
  cleanup_partial_failure_one_bulk_clear envAllExn ["a", "b"] "a"
    (by decide) (by decide) (by decide)

/-- Claim C2 counterexample: with one fault id `"a"` (all deletions even
succeeding), the second `_cleanup` call re-issues the same individual
deletion — the list was never emptied — and still ends with a non-empty
list, contradicting both halves of the idempotence claim. -/
theorem cleanup_not_idempotent_cex :
    (cleanup envAll200 (cleanup envAll200 ["a"]).faultIds).calls.filter
        isDeleteCall = [HttpCall.deleteFault "a" none] ∧
      (cleanup envAll200 (cleanup envAll200 ["a"]).faultIds).faultIds = ["a"] ∧
      ¬((cleanup envAll200 (cleanup envAll200 ["a"]).faultIds).faultIds = []) := by
  refine ⟨?_, ?_, ?_⟩ <;> decide

/-- Claim C2 amended: `_cleanup` never mutates `self.fault_ids`, so a second
call runs over the same list: it issues exactly the same individual-deletion
requests as the first call, and after the second call the list still equals
the original one (empty only if it started empty). -/
theorem cleanup_second_pass_repeats_deletions (env1 env2 : CleanupEnv)
    (l : List String) :
    (cleanup env2 (cleanup env1 l).faultIds).calls.filter isDeleteCall
        = (cleanup env1 l).calls.filter isDeleteCall ∧
      (cleanup env2 (cleanup env1 l).faultIds).faultIds = l := by
  rw [cleanup_faultIds env1 l]
  exact ⟨by rw [cleanup_delete_calls, cleanup_delete_calls],
    cleanup_faultIds env2 l⟩

/-- Claim C7 counterexample: one injected fault `"a"`, a termination signal
delivered: `_cleanup` runs twice before the process exits — once from
`_signal_handler`, once more from the atexit hook fired by `sys.exit(1)` —
not exactly once, and the second run issues HTTP calls again. -/
theorem signalExit_two_cleanup_runs_cex :
    (signalExit envAll200 envAll200 ["a"]).cleanupRuns.length = 2 ∧
      ¬((signalExit envAll200 envAll200 ["a"]).cleanupRuns.length = 1) ∧
      ((signalExit envAll200 envAll200 ["a"]).cleanupRuns.map
          (fun r => r.calls.length)) = [1, 1] := by
  refine ⟨?_, ?_, ?_⟩ <;> decide

/-- Claim C7 amended: two termination signals are registered (SIGINT,
SIGTERM); on receipt of either, `_cleanup` runs synchronously in the handler
and then — because `sys.exit(1)` fires the atexit hook and the fault-id list
was not cleared — runs a second time over the same list before the process
exits with status 1 (non-zero); normal process exit runs the same `_cleanup`
exactly once via atexit. -/
theorem signalExit_trace_spec (env1 env2 : CleanupEnv) (l : List String)
    (c : Nat) :
    registeredSignals.length = 2 ∧
      (signalExit env1 env2 l).cleanupRuns = [cleanup env1 l, cleanup env2 l] ∧
      (signalExit env1 env2 l).exitCode = 1 ∧
      (signalExit env1 env2 l).exitCode ≠ 0 ∧
      (normalExit env1 l c).cleanupRuns = [cleanup env1 l] := by
  have hruns : (signalExit env1 env2 l).cleanupRuns
      = [cleanup env1 l, cleanup env2 l] := by
    simp [signalExit, cleanup_faultIds]
  have hcode : (signalExit env1 env2 l).exitCode = 1 := rfl
  refine ⟨rfl, hruns, hcode, ?_, rfl⟩
  rw [hcode]
  decide

/-- Claim C8: `_cleanup` never raises to its caller: for every outcome of
the individual deletion calls and of the bulk-clear call (raised exceptions
included), the exception-explicit embedding returns `Except.ok` of the
recovery result — never `Except.error`. -/
theorem cleanupExc_never_raises (env : CleanupEnv) (l : List String) :
    cleanupExc env l = Except.ok (cleanup env l) := by
  unfold cleanupExc cleanup
  by_cases h : l = []
  · simp [h]
  · simp only [if_neg h, cleanupExcLoop_eq, attemptBulk_eq]
    split <;> rfl

/-- Claim C9 counterexample: the deletion issued by the recovery pass
carries no timeout (the `requests.delete` call site passes none, i.e. the
default of waiting forever), so it is not true that every recovery call
carries a bounded timeout. -/
theorem cleanup_no_timeout_cex :
    ¬(∀ c ∈ (cleanup envAll200 ["a"]).calls, (callTimeout c).isSome = true) := by
  decide

/-- Claim C9 amended: no network call issued during the recovery pass
specifies a per-call timeout (every call site passes the `requests` default
of none), and a raised request — a timeout included — is treated identically
to a failure status: the deletion is not counted as a success. -/
theorem cleanup_calls_carry_no_timeout (env : CleanupEnv) (l : List String)
    (c : HttpCall) (hc : c ∈ (cleanup env l).calls)
    (fid : String) (n : Nat)
    (hexn : env.deleteOutcome fid = HttpOutcome.exn) :
    callTimeout c = none ∧ attemptDelete env fid n = Except.ok n := by
  constructor
  · rw [cleanup_calls] at hc
    rcases List.mem_append.mp hc with h1 | h1
    · exact issuedDeletes_timeout l c h1
    · rcases Decidable.em (l.countP (deleteSucceeds env) < l.length) with hlt | hlt
      · simp [hlt] at h1
        simp [h1, callTimeout]
      · simp [hlt] at h1
  · rw [attemptDelete_eq, hexn]
    rfl

/-- Witness for the amended C9 at a concrete input: the deletion for `"a"`
carries no timeout, and its raised request counts no success. -/
theorem cleanup_calls_carry_no_timeout_witness :
    callTimeout (HttpCall.deleteFault "a" none) = none ∧
      attemptDelete envAllExn "a" 0 = Except.ok 0 :=
  cleanup_calls_carry_no_timeout envAllExn ["a"]
    (HttpCall.deleteFault "a" none) (by decide) "a" 0 (by decide)

/-- Claim C5 counterexample: a 200 response whose body is not a list — a
malformed response missing an identifier — makes `inject_fault` report
success with nothing recorded, instead of the injection error the claim
requires. -/
theorem inject_fault_malformed_success_cex :
    (inject_fault none (InjectOutcome.response 200 InjectBody.notList)).success
        = true ∧
      (inject_fault none (InjectOutcome.response 200 InjectBody.notList)).fault_id
        = none :=
  ⟨rfl, rfl⟩

/-- Claim C5 amended: on transport failure/timeout or a non-success status,
`inject_fault` reports failure and leaves the fault slot unchanged; on a 200
response whose body is a list with a first item carrying an id, it records
and returns that id; but on a 200 response that is malformed (not a list, or
an empty list) it still reports success while recording nothing new. -/
theorem inject_fault_outcomes (prior : Option String) (code : Nat)
    (body : InjectBody) (i : String) (items : List InjectItem) :
    inject_fault prior InjectOutcome.exn
        = { success := false, fault_id := prior } ∧
      (code ≠ 200 →
        inject_fault prior (InjectOutcome.response code body)
          = { success := false, fault_id := prior }) ∧
      inject_fault prior
          (InjectOutcome.response 200
            (InjectBody.jsonList (InjectItem.withId i :: items)))
        = { success := true, fault_id := some i } ∧
      inject_fault prior (InjectOutcome.response 200 InjectBody.notList)
        = { success := true, fault_id := prior } ∧
      inject_fault prior (InjectOutcome.response 200 (InjectBody.jsonList []))
        = { success := true, fault_id := prior } := by
  refine ⟨rfl, ?_, rfl, rfl, rfl⟩
  intro hc
  simp [inject_fault, hc]

/-- Witness for the amended C5 at a concrete input: status 503 reports
failure with the slot unchanged. -/
theorem inject_fault_outcomes_witness :
    inject_fault none (InjectOutcome.response 503 InjectBody.notList)
      = { success := false, fault_id := none } :=
  (inject_fault_outcomes none 503 InjectBody.notList "a" []).2.1 (by decide)

/-- Claim C6 counterexample: a single inject whose 200 response is an empty
list is reported successful, yet nothing enters the FaultSet: its size (0)
differs from the number of successful injections (1). -/
theorem runInjections_missing_id_cex :
    ((runInjections [] [InjectOutcome.response 200 (InjectBody.jsonList [])]).2.all
        (fun r => r.success)) = true ∧
      ¬((runInjections []
          [InjectOutcome.response 200 (InjectBody.jsonList [])]).1.length = 1) := by
  refine ⟨?_, ?_⟩ <;> decide

/-- Claim C6 amended: for every sequence of inject calls each of which
succeeds with a response actually carrying a truthy identifier, starting
from an empty FaultSet, the size of the FaultSet afterwards equals the
number of injections, and every identifier returned by one of the calls is a
member of the FaultSet. -/
theorem runInjections_counts_ids (outs : List InjectOutcome)
    (H : ∀ o ∈ outs, ∃ s items,
        o = InjectOutcome.response 200
              (InjectBody.jsonList (InjectItem.withId s :: items))
          ∧ s ≠ "") :
    (runInjections [] outs).1.length = outs.length ∧
      ∀ r ∈ (runInjections [] outs).2, ∀ s, r.fault_id = some s →
        s ∈ (runInjections [] outs).1 := by
  have h := runInjections_wellformed outs [] H
  simpa using h

/-- Witness for the amended C6 at a concrete input: one injection returning
id `"a"`. -/
theorem runInjections_counts_ids_witness :
    (runInjections []
        [InjectOutcome.response 200
          (InjectBody.jsonList [InjectItem.withId "a"])]).1.length = 1 :=
  (runInjections_counts_ids
    [InjectOutcome.response 200 (InjectBody.jsonList [InjectItem.withId "a"])]
    (by
      intro o ho
      simp only [List.mem_singleton] at ho
      exact ⟨"a", [], ho, by decide⟩)).1

/-- Claim C10: `cleanup_all_faults` never issues an individual deletion; its
first call is the listing GET; a raised or non-200 listing (or a body that
fails to parse) returns False with no bulk-clear; an empty fault list
returns True with no further call; a non-empty list triggers exactly one
bulk-clear POST of an empty list, and the result is True exactly when that
call returns status 200. -/
theorem cleanup_all_faults_spec (env : CleanupAllEnv) :
    ((cleanup_all_faults env).calls.countP isDeleteCall = 0) ∧
      ((cleanup_all_faults env).calls.head? = some (HttpCall.getFaults none)) ∧
      (env.getOutcome = HttpOutcome.exn →
        cleanup_all_faults env
          = { ok := false, calls := [HttpCall.getFaults none] }) ∧
      (∀ c2, env.getOutcome = HttpOutcome.status c2 → c2 ≠ 200 →
        cleanup_all_faults env
          = { ok := false, calls := [HttpCall.getFaults none] }) ∧
      (env.getOutcome = HttpOutcome.status 200 →
        env.getBody = ListBody.invalidJson →
        cleanup_all_faults env
          = { ok := false, calls := [HttpCall.getFaults none] }) ∧
      (env.getOutcome = HttpOutcome.status 200 →
        env.getBody = ListBody.faults [] →
        cleanup_all_faults env
          = { ok := true, calls := [HttpCall.getFaults none] }) ∧
      (∀ f rest, env.getOutcome = HttpOutcome.status 200 →
        env.getBody = ListBody.faults (f :: rest) →
        (cleanup_all_faults env).calls.countP isBulkClear = 1 ∧
          ((cleanup_all_faults env).ok = true ↔
            env.clearOutcome = HttpOutcome.status 200)) := by
  obtain ⟨g, b, cl⟩ := env
  refine ⟨?_, ?_, ?_, ?_, ?_, ?_, ?_⟩
  · cases g with
    | exn => rfl
    | status c2 =>
      by_cases h2 : c2 = 200
      · subst h2
        cases b with
        | invalidJson => rfl
        | faults fl =>
          cases fl with
          | nil => rfl
          | cons f rest =>
            cases cl with
            | exn => rfl
            | status cc =>
              by_cases h3 : cc = 200 <;>
                simp [cleanup_all_faults, h3, List.countP_cons, isDeleteCall]
      · simp [cleanup_all_faults, h2, List.countP_cons, isDeleteCall]
  · cases g with
    | exn => rfl
    | status c2 =>
      by_cases h2 : c2 = 200
      · subst h2
        cases b with
        | invalidJson => rfl
        | faults fl =>
          cases fl with
          | nil => rfl
          | cons f rest =>
            cases cl with
            | exn => rfl
            | status cc =>
              by_cases h3 : cc = 200 <;> simp [cleanup_all_faults, h3]
      · simp [cleanup_all_faults, h2]
  · intro hg
    subst hg
    rfl
  · intro c2 hg h2
    subst hg
    simp [cleanup_all_faults, h2]
  · intro hg hb
    subst hg
    subst hb
    rfl
  · intro hg hb
    subst hg
    subst hb
    rfl
  · intro f rest hg hb
    subst hg
    subst hb
    cases cl with
    | exn =>
      refine ⟨rfl, ?_⟩
      simp [cleanup_all_faults]
    | status cc =>
      by_cases h3 : cc = 200
      · subst h3
        exact ⟨rfl, by simp [cleanup_all_faults]⟩
      · refine ⟨?_, ?_⟩
        · simp [cleanup_all_faults, h3, List.countP_cons, isBulkClear]
        constructor
        · intro hok
          exfalso
          simp [cleanup_all_faults, h3] at hok
        · intro he
          exfalso
          injection he with h4
          exact h3 h4

/-- Witness for C10 at a concrete input: listing returns 200 with one
active fault, the bulk-clear returns 200. -/
theorem cleanup_all_faults_spec_witness :
    (cleanup_all_faults
        { getOutcome := HttpOutcome.status 200, getBody := ListBody.faults ["x"],
          clearOutcome := HttpOutcome.status 200 }).calls.countP isBulkClear = 1 ∧
      ((cleanup_all_faults
          { getOutcome := HttpOutcome.status 200, getBody := ListBody.faults ["x"],
            clearOutcome := HttpOutcome.status 200 }).ok = true ↔
        ({ getOutcome := HttpOutcome.status 200, getBody := ListBody.faults ["x"],
            clearOutcome := HttpOutcome.status 200 } : CleanupAllEnv).clearOutcome
          = HttpOutcome.status 200) :=
  (cleanup_all_faults_spec
      { getOutcome := HttpOutcome.status 200, getBody := ListBody.faults ["x"],
        clearOutcome := HttpOutcome.status 200 }).2.2.2.2.2.2 "x" [] rfl rfl

end Chaos
